import Mathlib

set_option maxHeartbeats 2000000

namespace TA

/- Shallow embedding of src/processor.py (trade-accounting).

Python strings are modelled as Lean String / List Char, Python int as Int
(regex captures are digit strings, so parsed values are non-negative),
Python float on the decimal tokens this parser extracts as exact rationals,
and datetime values as a plain record of calendar fields.

Each regular expression of the source is embedded as an executable matcher
with Python re semantics: leftmost search, ordered alternation, greedy and
lazy quantifiers with backtracking.  Wherever a greedy quantifier over a
character class is followed by a class disjoint from it (for example a digit
run followed by required whitespace), the backtracking semantics coincides
with maximal munch, and the matcher is written as maximal munch; genuinely
ambiguous spots (the number-list before the expiration date, the lazy
fill-time scan, the date-received field) keep explicit backtracking. -/

/-- Python re whitespace class, restricted to the ASCII repertoire these
confirmation texts use. -/
def isSp (c : Char) : Bool :=
  c == ' ' || c == '\t' || c == '\n' || c == '\r' || c == '\x0b' || c == '\x0c'

def notSp (c : Char) : Bool := !(isSp c)

def digitVal (c : Char) : Nat := c.toNat - 48

def natOfDigits (l : List Char) : Nat :=
  l.foldl (fun a c => 10 * a + digitVal c) 0

def natOfDigitsStr (s : String) : Nat := natOfDigits s.toList

/-- Python exceptions that the parser can raise. -/
inductive PyErr where
  | valueError (msg : String)
  | keyError (key : String)
deriving DecidableEq

/-- A Python datetime value (the fields the parser constructs and compares). -/
structure DateTime where
  year : Nat
  month : Nat
  day : Nat
  hour : Nat
  minute : Nat
  second : Nat
deriving DecidableEq

structure TradeLeg where
  action : String
  quantity : Int
  symbol : String
  expiration : Option DateTime
  option_type : Option String
  strike : Option ℚ
  fill_price : ℚ
  fill_time : DateTime
deriving DecidableEq

structure Trade where
  order_id : String
  date_received : DateTime
  order_type : String
  legs : List TradeLeg
deriving DecidableEq

/-! Whitespace splitting and rejoining: Python str.split() with no argument
followed by a single-space join, the normalizer of both
TradeProcessor.preprocess_pdf_text and EmailParser.parse_email. -/

def splitWsAcc : List Char → List Char → List (List Char)
  | [], acc => if acc = [] then [] else [acc.reverse]
  | c :: r, acc =>
    if isSp c then
      (if acc = [] then splitWsAcc r [] else acc.reverse :: splitWsAcc r [])
    else splitWsAcc r (c :: acc)

def splitWsL (l : List Char) : List (List Char) := splitWsAcc l []

def joinSp : List (List Char) → List Char
  | [] => []
  | [t] => t
  | t :: ts => t ++ ' ' :: joinSp ts

/-- The composite whitespace collapse: each maximal run of whitespace becomes
a single space and leading/trailing whitespace disappears. -/
def collapseL (l : List Char) : List Char := joinSp (splitWsL l)

def collapseS (s : String) : String := String.mk (collapseL s.toList)

/-- Python str.strip(). -/
def stripL (l : List Char) : List Char :=
  ((l.dropWhile isSp).reverse.dropWhile isSp).reverse

def stripS (s : String) : String := String.mk (stripL s.toList)

/-! Elementary matchers shared by the embedded regexes. -/

/-- Match a literal character sequence at the head (case sensitive). -/
def litP : List Char → List Char → Option (List Char)
  | [], s => some s
  | _ :: _, [] => none
  | c :: l, d :: s => if d = c then litP l s else none

/-- Match a literal character sequence at the head, ignoring case. -/
def litPCI : List Char → List Char → Option (List Char)
  | [], s => some s
  | _ :: _, [] => none
  | c :: l, d :: s => if d.toLower = c.toLower then litPCI l s else none

/-- Greedy whitespace-plus: one or more whitespace characters (followed in
every use below by a non-whitespace requirement, so maximal munch is exact). -/
def wsRun1 : List Char → Option (List Char)
  | [] => none
  | c :: r => if isSp c then some (r.dropWhile isSp) else none

/-- Greedy digit-plus with the captured run. -/
def digitsRun1 : List Char → Option (String × List Char)
  | [] => none
  | c :: r =>
    if c.isDigit then
      some (String.mk (c :: r.takeWhile Char.isDigit), r.dropWhile Char.isDigit)
    else none

/-- Greedy uppercase-letter-plus with the captured run. -/
def upperRun1 : List Char → Option (String × List Char)
  | [] => none
  | c :: r =>
    if c.isUpper then
      some (String.mk (c :: r.takeWhile Char.isUpper), r.dropWhile Char.isUpper)
    else none

/-- Greedy ASCII-letter-plus with the captured run. -/
def alphaRun1 : List Char → Option (String × List Char)
  | [] => none
  | c :: r =>
    if c.isAlpha then
      some (String.mk (c :: r.takeWhile Char.isAlpha), r.dropWhile Char.isAlpha)
    else none

/-- The decimal-number token of LEG_PATTERN: digit-plus, an optional dot,
digit-star.  Every shorter split ends at a digit or at the dot, where the
required follower (whitespace, or end of pattern) fails as well, so maximal
munch again coincides with the backtracking semantics. -/
def numTok (s : List Char) : Option (String × List Char) :=
  match digitsRun1 s with
  | none => none
  | some (d1, s1) =>
    match s1 with
    | c :: s2 =>
      if c = '.' then
        some (d1 ++ "." ++ String.mk (s2.takeWhile Char.isDigit),
              s2.dropWhile Char.isDigit)
      else some (d1, c :: s2)
    | [] => some (d1, [])

/-! EmailParser.LEG_PATTERN, embedded group by group:

  (Bought|Sold)\s+(\d+)\s+([A-Z]+)(?:\s+\d+)*\s+
  (\d{1,2}/\d{1,2}/\d{2,4})\s+(Put|Call)\s+(\d+\.?\d*)\s+@\s+(\d+\.?\d*)
  (?:.*?Filled\s+at:\s*(.*?(?:AM|PM)\s+E[DS]T))?

compiled with re.DOTALL and applied with re.search. -/

/-- Captured groups of a successful LEG_PATTERN match.  Groups one to seven
are mandatory in the pattern, so they capture strings; only the fill-time
group is optional. -/
structure LegGroups where
  action : String
  qty : String
  symbol : String
  exp : String
  optType : String
  strike : String
  price : String
  fillTime : Option String
deriving DecidableEq

/-- Group one, the ordered alternation Bought preferred over Sold. -/
def pAction (s : List Char) : Option (String × List Char) :=
  match litP "Bought".toList s with
  | some r => some ("Bought", r)
  | none =>
    match litP "Sold".toList s with
    | some r => some ("Sold", r)
    | none => none

/-- Group five, the ordered alternation Put then Call. -/
def pOpt (s : List Char) : Option (String × List Char) :=
  match litP "Put".toList s with
  | some r => some ("Put", r)
  | none =>
    match litP "Call".toList s with
    | some r => some ("Call", r)
    | none => none

/-- The expiration group \d{1,2}/\d{1,2}/\d{2,4}.  Each bounded digit
quantifier is followed by a non-digit requirement (a slash, or the
whitespace after the group), so it must consume an entire maximal digit run,
and the match succeeds exactly when that run length is within the bound. -/
def pDate (s : List Char) : Option (String × List Char) :=
  match digitsRun1 s with
  | none => none
  | some (m, s1) =>
    if m.length ≤ 2 then
      match s1 with
      | c1 :: s2 =>
        if c1 = '/' then
          match digitsRun1 s2 with
          | none => none
          | some (d, s3) =>
            if d.length ≤ 2 then
              match s3 with
              | c2 :: s4 =>
                if c2 = '/' then
                  match digitsRun1 s4 with
                  | none => none
                  | some (y, s5) =>
                    if 2 ≤ y.length ∧ y.length ≤ 4 then
                      some (m ++ "/" ++ d ++ "/" ++ y, s5)
                    else none
                else none
              | [] => none
            else none
        else none
      | [] => none
    else none

/-- Tail of the greedy star (?:\s+\d+)*: the \s+ and expiration date that
follow it in the pattern. -/
def starNumsDateTail (s : List Char) : Option (String × List Char) :=
  match wsRun1 s with
  | none => none
  | some s1 => pDate s1

/-- The greedy star (?:\s+\d+)* with genuine backtracking: at every depth
one more iteration is preferred, and on failure of everything after the star
the iteration is given back and the date tail is tried here.  Fuel bounds the
recursion; every iteration consumes at least two characters, so input length
plus one is always enough. -/
def starNumsAux : Nat → List Char → Option (String × List Char)
  | 0, _ => none
  | f + 1, s =>
    match
      (match wsRun1 s with
       | none => none
       | some s1 =>
         match digitsRun1 s1 with
         | none => none
         | some (_, s2) => starNumsAux f s2) with
    | some r => some r
    | none => starNumsDateTail s

/-- The literal trailer (?:AM|PM)\s+E[DS]T of the fill-time capture.
Returns the consumed characters (they belong to the capture) and the rest. -/
def zoneAt (s : List Char) : Option (List Char × List Char) :=
  match
    (match litP "AM".toList s with
     | some r => some (['A', 'M'], r)
     | none =>
       match litP "PM".toList s with
       | some r => some (['P', 'M'], r)
       | none => none) with
  | none => none
  | some (c1, s1) =>
    match s1 with
    | c :: r =>
      if isSp c then
        match r.dropWhile isSp with
        | 'E' :: d :: 'T' :: rest =>
          if d = 'D' ∨ d = 'S' then
            some (c1 ++ c :: r.takeWhile isSp ++ ['E', d, 'T'], rest)
          else none
        | _ => none
      else none
    | [] => none

/-- The lazy capture (.*?(?:AM|PM)\s+E[DS]T): shortest extension first, so at
each position the zone trailer is tried before consuming one more character
into the capture. -/
def zoneScan : Nat → List Char → List Char → Option String
  | 0, _, _ => none
  | f + 1, s, acc =>
    match zoneAt s with
    | some (consumed, _) => some (String.mk (acc.reverse ++ consumed))
    | none =>
      match s with
      | [] => none
      | c :: r => zoneScan f r (c :: acc)

/-- One attempt of Filled\s+at:\s*(...) at the current position. -/
def filledTryAt (s : List Char) : Option String :=
  match litP "Filled".toList s with
  | none => none
  | some s1 =>
    match wsRun1 s1 with
    | none => none
    | some s2 =>
      match litP "at:".toList s2 with
      | none => none
      | some s3 =>
        match s3.dropWhile isSp with
        | s4 => zoneScan (s4.length + 1) s4 []

/-- The lazy prefix .*?Filled\s+at:... of the optional fill-time group:
earliest attachment point first, advancing one character on failure. -/
def filledScan : Nat → List Char → Option String
  | 0, _ => none
  | f + 1, s =>
    match filledTryAt s with
    | some cap => some cap
    | none =>
      match s with
      | [] => none
      | _ :: r => filledScan f r

/-- LEG_PATTERN anchored at the current position. -/
def legMatchAt (s : List Char) : Option LegGroups := do
  let (act, s1) ← pAction s
  let s2 ← wsRun1 s1
  let (q, s3) ← digitsRun1 s2
  let s4 ← wsRun1 s3
  let (sym, s5) ← upperRun1 s4
  let (exp, s6) ← starNumsAux (s5.length + 1) s5
  let s7 ← wsRun1 s6
  let (ot, s8) ← pOpt s7
  let s9 ← wsRun1 s8
  let (stk, s10) ← numTok s9
  let s11 ← wsRun1 s10
  let s12 ← litP ['@'] s11
  let s13 ← wsRun1 s12
  let (pr, s14) ← numTok s13
  pure ⟨act, q, sym, exp, ot, stk, pr, filledScan (s14.length + 1) s14⟩

/-- re.search of LEG_PATTERN: leftmost start position wins. -/
def legSearchAux : List Char → Option LegGroups
  | [] => none
  | s@(_ :: r) =>
    match legMatchAt s with
    | some g => some g
    | none => legSearchAux r

/-! datetime.strptime, restricted to the three format strings the source
uses: "%b %d, %Y %I:%M:%S %p EDT", "%b %d, %Y %I:%M:%S %p EST" and
"%m/%d/%y".  Python compiles each directive to a regex alternation (matched
case-insensitively) and whitespace in the format to \s+, matches from the
start, and raises ValueError when the input is not fully consumed.  In these
formats every numeric directive is followed by a non-digit requirement, so
the directive alternation never needs cross-directive backtracking and is
embedded as ordered committed choice. -/

/-- Directive %m and %I: the alternation (1[0-2]|0[1-9]|[1-9]). -/
def pNum12 : List Char → Option (Nat × List Char)
  | c1 :: c2 :: r =>
    if c1 = '1' ∧ '0' ≤ c2 ∧ c2 ≤ '2' then some (10 + digitVal c2, r)
    else if c1 = '0' ∧ '1' ≤ c2 ∧ c2 ≤ '9' then some (digitVal c2, r)
    else if '1' ≤ c1 ∧ c1 ≤ '9' then some (digitVal c1, c2 :: r)
    else none
  | [c1] => if '1' ≤ c1 ∧ c1 ≤ '9' then some (digitVal c1, []) else none
  | [] => none

/-- Directive %d: the alternation (3[01]|[12]\d|0[1-9]|[1-9]). -/
def pDayNum : List Char → Option (Nat × List Char)
  | c1 :: c2 :: r =>
    if c1 = '3' ∧ (c2 = '0' ∨ c2 = '1') then some (30 + digitVal c2, r)
    else if (c1 = '1' ∨ c1 = '2') ∧ c2.isDigit then
      some (10 * digitVal c1 + digitVal c2, r)
    else if c1 = '0' ∧ '1' ≤ c2 ∧ c2 ≤ '9' then some (digitVal c2, r)
    else if '1' ≤ c1 ∧ c1 ≤ '9' then some (digitVal c1, c2 :: r)
    else none
  | [c1] => if '1' ≤ c1 ∧ c1 ≤ '9' then some (digitVal c1, []) else none
  | [] => none

/-- Directive %y: exactly two digits. -/
def pYear2 : List Char → Option (Nat × List Char)
  | c1 :: c2 :: r =>
    if c1.isDigit ∧ c2.isDigit then some (10 * digitVal c1 + digitVal c2, r)
    else none
  | _ => none

/-- Directive %Y: exactly four digits. -/
def pYear4 : List Char → Option (Nat × List Char)
  | c1 :: c2 :: c3 :: c4 :: r =>
    if c1.isDigit ∧ c2.isDigit ∧ c3.isDigit ∧ c4.isDigit then
      some (1000 * digitVal c1 + 100 * digitVal c2 + 10 * digitVal c3 + digitVal c4, r)
    else none
  | _ => none

/-- Directive %M: the alternation ([0-5]\d|\d). -/
def pMinNum : List Char → Option (Nat × List Char)
  | c1 :: c2 :: r =>
    if '0' ≤ c1 ∧ c1 ≤ '5' ∧ c2.isDigit then
      some (10 * digitVal c1 + digitVal c2, r)
    else if c1.isDigit then some (digitVal c1, c2 :: r)
    else none
  | [c1] => if c1.isDigit then some (digitVal c1, []) else none
  | [] => none

/-- Directive %S: the alternation (6[0-1]|[0-5]\d|\d). -/
def pSecNum : List Char → Option (Nat × List Char)
  | c1 :: c2 :: r =>
    if c1 = '6' ∧ (c2 = '0' ∨ c2 = '1') then some (60 + digitVal c2, r)
    else if '0' ≤ c1 ∧ c1 ≤ '5' ∧ c2.isDigit then
      some (10 * digitVal c1 + digitVal c2, r)
    else if c1.isDigit then some (digitVal c1, c2 :: r)
    else none
  | [c1] => if c1.isDigit then some (digitVal c1, []) else none
  | [] => none

/-- Directive %b: the twelve abbreviated month names, case insensitive. -/
def monthAbbrs : List (String × Nat) :=
  [("jan", 1), ("feb", 2), ("mar", 3), ("apr", 4), ("may", 5), ("jun", 6),
   ("jul", 7), ("aug", 8), ("sep", 9), ("oct", 10), ("nov", 11), ("dec", 12)]

def pMonthAbbrAux : List (String × Nat) → List Char → Option (Nat × List Char)
  | [], _ => none
  | (a, v) :: rest, s =>
    match litPCI a.toList s with
    | some r => some (v, r)
    | none => pMonthAbbrAux rest s

def pMonthAbbr (s : List Char) : Option (Nat × List Char) :=
  pMonthAbbrAux monthAbbrs s

/-- Directive %p: AM or PM, case insensitive; the Bool is true for PM. -/
def pAmPm (s : List Char) : Option (Bool × List Char) :=
  match litPCI "am".toList s with
  | some r => some (false, r)
  | none =>
    match litPCI "pm".toList s with
    | some r => some (true, r)
    | none => none

def isLeap (y : Nat) : Bool :=
  y % 4 == 0 && (y % 100 != 0 || y % 400 == 0)

def daysInMonth (y m : Nat) : Nat :=
  if m = 2 then (if isLeap y then 29 else 28)
  else if m = 4 ∨ m = 6 ∨ m = 9 ∨ m = 11 then 30
  else 31

/-- The validation the datetime constructor performs on the fields strptime
extracts (the regex alternations already bound month, day, hour and minute;
days beyond the month length and leap seconds still raise ValueError). -/
def mkDateTime (y mo d h mi s : Nat) : Option DateTime :=
  if 1 ≤ mo ∧ mo ≤ 12 ∧ 1 ≤ d ∧ d ≤ daysInMonth y mo ∧ h ≤ 23 ∧ mi ≤ 59 ∧ s ≤ 59 then
    some ⟨y, mo, d, h, mi, s⟩
  else none

/-- The no-match error of strptime against "%m/%d/%y". -/
def mdyErr (s : String) : Except PyErr DateTime :=
  .error (.valueError ("time data " ++ s ++ " does not match format %m/%d/%y"))

/-- The tail of "%m/%d/%y" after month, day and the second slash: exactly
two digits for %y, then the full-consumption check, the century pivot at 68
and the datetime construction. -/
def mdyYear (e : String) (mo d : Nat) (s4 : List Char) : Except PyErr DateTime :=
  match pYear2 s4 with
  | none => mdyErr e
  | some (yy, s5) =>
    if s5 = [] then
      match mkDateTime (if yy ≤ 68 then 2000 + yy else 1900 + yy) mo d 0 0 0 with
      | some dt => .ok dt
      | none => .error (.valueError "day is out of range for month")
    else .error (.valueError ("unconverted data remains: " ++ String.mk s5))

/-- The literal slash between %d and %y. -/
def mdySlash2 (e : String) (mo d : Nat) : List Char → Except PyErr DateTime
  | c2 :: s4 => if c2 = '/' then mdyYear e mo d s4 else mdyErr e
  | [] => mdyErr e

/-- The %d directive of "%m/%d/%y". -/
def mdyDay (e : String) (mo : Nat) (s2 : List Char) : Except PyErr DateTime :=
  match pDayNum s2 with
  | none => mdyErr e
  | some (d, s3) => mdySlash2 e mo d s3

/-- The literal slash between %m and %d. -/
def mdySlash1 (e : String) (mo : Nat) : List Char → Except PyErr DateTime
  | c1 :: s2 => if c1 = '/' then mdyDay e mo s2 else mdyErr e
  | [] => mdyErr e

/-- strptime against "%m/%d/%y", as used for a leg expiration date.  The
two-digit year is pivoted at 68 exactly as Python does. -/
def strptimeMdy (s : String) : Except PyErr DateTime :=
  match pNum12 s.toList with
  | none => mdyErr s
  | some (mo, s1) => mdySlash1 s mo s1

/-- strptime against "%b %d, %Y %I:%M:%S %p Z" where Z is the zone literal
of the format, EDT or EST.  The two formats the source tries are identical
apart from that literal. -/
def strptimeLong (zone : String) (s : String) : Option DateTime :=
  match pMonthAbbr s.toList with
  | none => none
  | some (mo, s1) =>
  match wsRun1 s1 with
  | none => none
  | some s2 =>
  match pDayNum s2 with
  | none => none
  | some (d, s3) =>
  match s3 with
  | ',' :: s4 =>
    match wsRun1 s4 with
    | none => none
    | some s5 =>
    match pYear4 s5 with
    | none => none
    | some (y, s6) =>
    match wsRun1 s6 with
    | none => none
    | some s7 =>
    match pNum12 s7 with
    | none => none
    | some (h12, s8) =>
    match s8 with
    | ':' :: s9 =>
      match pMinNum s9 with
      | none => none
      | some (mi, s10) =>
      match s10 with
      | ':' :: s11 =>
        match pSecNum s11 with
        | none => none
        | some (sec, s12) =>
        match wsRun1 s12 with
        | none => none
        | some s13 =>
        match pAmPm s13 with
        | none => none
        | some (pm, s14) =>
        match wsRun1 s14 with
        | none => none
        | some s15 =>
        match litPCI zone.toList s15 with
        | none => none
        | some s16 =>
          if s16 = [] then
            mkDateTime y mo d
              (if pm then (if h12 = 12 then 12 else h12 + 12)
               else (if h12 = 12 then 0 else h12)) mi sec
          else none
      | _ => none
    | _ => none
  | _ => none

/-! re.sub: global substitution, scanning left to right, continuing after
each match; every pattern substituted below matches at least one character. -/

/-- Generic re.sub driver.  The matcher tries the pattern anchored at the
current position and on success returns the rendered replacement and the
rest of the input after the match. -/
def subAll (m : List Char → Option (String × List Char)) :
    Nat → List Char → List Char
  | 0, s => s
  | _ + 1, [] => []
  | f + 1, c :: r =>
    match m (c :: r) with
    | some (rep, rest) =>
      if rest.length < r.length + 1 then rep.toList ++ subAll m f rest
      else c :: subAll m f r
    | none => c :: subAll m f r

def runSub (m : List Char → Option (String × List Char)) (l : List Char) :
    List Char := subAll m l.length l

/-! The four artifact repairs of EmailParser.parse_datetime. -/

/-- The shared capture (\d+:\d+:\d+) of the AM and PM repairs. -/
def hmsAt (s : List Char) : Option (String × List Char) :=
  match digitsRun1 s with
  | none => none
  | some (h, s1) =>
    match s1 with
    | ':' :: s2 =>
      match digitsRun1 s2 with
      | none => none
      | some (m2, s3) =>
        match s3 with
        | ':' :: s4 =>
          match digitsRun1 s4 with
          | none => none
          | some (sc, s5) => some (h ++ ":" ++ m2 ++ ":" ++ sc, s5)
        | _ => none
    | _ => none

/-- (\d+:\d+:\d+)\s+A\s*M replaced by the capture and a repaired AM. -/
def amFixAt (s : List Char) : Option (String × List Char) :=
  match hmsAt s with
  | none => none
  | some (g1, s1) =>
    match wsRun1 s1 with
    | none => none
    | some s2 =>
      match s2 with
      | 'A' :: s3 =>
        match s3.dropWhile isSp with
        | 'M' :: s5 => some (g1 ++ " AM", s5)
        | _ => none
      | _ => none

/-- (\d+:\d+:\d+)\s+P\s*M replaced by the capture and a repaired PM. -/
def pmFixAt (s : List Char) : Option (String × List Char) :=
  match hmsAt s with
  | none => none
  | some (g1, s1) =>
    match wsRun1 s1 with
    | none => none
    | some s2 =>
      match s2 with
      | 'P' :: s3 =>
        match s3.dropWhile isSp with
        | 'M' :: s5 => some (g1 ++ " PM", s5)
        | _ => none
      | _ => none

/-- E\s*([DS]T) replaced by E and the captured zone tail. -/
def zoneFixAt (s : List Char) : Option (String × List Char) :=
  match s with
  | 'E' :: s1 =>
    match s1.dropWhile isSp with
    | d :: 'T' :: r =>
      if d = 'D' ∨ d = 'S' then some (String.mk ['E', d, 'T'], r) else none
    | _ => none
  | _ => none

/-- ([A-Za-z]+)\s+(\d+)\s+(\d+) replaced by the word, a space, and the two
digit groups joined: the split-day repair. -/
def dayJoinAt (s : List Char) : Option (String × List Char) :=
  match alphaRun1 s with
  | none => none
  | some (a, s1) =>
  match wsRun1 s1 with
  | none => none
  | some s2 =>
  match digitsRun1 s2 with
  | none => none
  | some (d1, s3) =>
  match wsRun1 s3 with
  | none => none
  | some s4 =>
  match digitsRun1 s4 with
  | none => none
  | some (d2, s5) => some (a ++ " " ++ d1 ++ d2, s5)

/-- The artifact-repair pipeline of parse_datetime: the four substitutions in
source order followed by whitespace collapse. -/
def repairDateStr (s : String) : String :=
  String.mk (collapseL (runSub dayJoinAt (runSub zoneFixAt
    (runSub pmFixAt (runSub amFixAt s.toList)))))

/-- EmailParser.parse_datetime: repair artifacts, then strict parse with the
EDT format, then with the EST format, and raise ValueError when both fail. -/
def parse_datetime (date_str : String) : Except PyErr DateTime :=
  let ds := stripS (repairDateStr date_str)
  match strptimeLong "EDT" ds with
  | some d => .ok d
  | none =>
    match strptimeLong "EST" ds with
    | some d => .ok d
    | none => .error (.valueError ("Error parsing date: " ++ ds))

/-- Python float on the tokens \d+\.?\d* captures: an exact rational,
integer part and fraction digits over the matching power of ten. -/
def floatOfTok (s : String) : ℚ :=
  match (s.toList.dropWhile (fun c => !(c = '.'))) with
  | '.' :: fp =>
    mkRat (Int.ofNat (natOfDigits (s.toList.takeWhile (fun c => !(c = '.'))) *
      10 ^ fp.length + natOfDigits fp)) (10 ^ fp.length)
  | _ => mkRat (Int.ofNat (natOfDigits s.toList)) 1

/-- The keys EmailParser.REGEX_PATTERNS actually defines.  The dictionary
has no fill_time entry, although parse_leg subscripts it with that key. -/
def regexPatternsKeys : List String :=
  ["order_id", "date_received", "order_type", "legs"]

/-- EmailParser.parse_leg.  When the optional fill-time group is missing (or
empty, which the falsiness test also catches) the source evaluates
REGEX_PATTERNS[fill_time]; regexPatternsKeys shows the dictionary defines no
such key, so that subscript raises KeyError(fill_time) before the intended
fallback search or the ValueError branch below it can run. -/
def parse_leg (leg_text : String) : Except PyErr TradeLeg :=
  match legSearchAux leg_text.toList with
  | none => .error (.valueError ("Invalid leg format: " ++ leg_text))
  | some g =>
    match
      (match g.fillTime with
       | some ft => if ft = "" then none else some ft
       | none => none) with
    | none => .error (.keyError "fill_time")
    | some ft =>
      match
        (if g.exp = "" then Except.ok Option.none
         else (strptimeMdy g.exp).map Option.some) with
      | .error e => .error e
      | .ok expiration =>
        match parse_datetime ft with
        | .error e => .error e
        | .ok ftd =>
          .ok
            { action := g.action
              quantity := Int.ofNat (natOfDigitsStr g.qty)
              symbol := g.symbol
              expiration := expiration
              option_type := if g.optType = "" then none else some g.optType
              strike := if g.strike = "" then none else some (floatOfTok g.strike)
              fill_price := floatOfTok g.price
              fill_time := ftd }

/-! A small continuation-passing backtracking engine with Python re
semantics, used for the field patterns of parse_email whose quantifier
interleaving is genuinely ambiguous.  A pattern takes the remaining input,
the capture state and a continuation; ordered alternation tries the first
branch with the full continuation and falls to the second only if that whole
attempt fails, exactly the backtracking order of re. -/

def Pat (σ : Type) : Type :=
  List Char → σ → (List Char → σ → Option (List Char × σ)) → Option (List Char × σ)

def peps {σ : Type} : Pat σ := fun s st k => k s st

def pseq {σ : Type} (p q : Pat σ) : Pat σ :=
  fun s st k => p s st (fun s1 st1 => q s1 st1 k)

def palt {σ : Type} (p q : Pat σ) : Pat σ :=
  fun s st k =>
    match p s st k with
    | some r => some r
    | none => q s st k

def pch {σ : Type} (f : Char → Bool) : Pat σ :=
  fun s st k =>
    match s with
    | [] => none
    | c :: r => if f c then k r st else none

def plit {σ : Type} (lit : String) : Pat σ :=
  fun s st k =>
    match litP lit.toList s with
    | some r => k r st
    | none => none

def plitCI {σ : Type} (lit : String) : Pat σ :=
  fun s st k =>
    match litPCI lit.toList s with
    | some r => k r st
    | none => none

/-- Greedy star: more iterations preferred.  Fuel bounds the depth; every
iteration of the patterns below consumes at least one character. -/
def pstarGAux {σ : Type} (p : Pat σ) : Nat → Pat σ
  | 0 => peps
  | f + 1 => palt (pseq p (pstarGAux p f)) peps

def pstarG {σ : Type} (p : Pat σ) : Pat σ :=
  fun s st k => pstarGAux p (s.length + 1) s st k

/-- Lazy star: fewer iterations preferred. -/
def pstarLAux {σ : Type} (p : Pat σ) : Nat → Pat σ
  | 0 => peps
  | f + 1 => palt peps (pseq p (pstarLAux p f))

def pstarL {σ : Type} (p : Pat σ) : Pat σ :=
  fun s st k => pstarLAux p (s.length + 1) s st k

def pplusG {σ : Type} (p : Pat σ) : Pat σ := pseq p (pstarG p)

def pplusL {σ : Type} (p : Pat σ) : Pat σ := pseq p (pstarL p)

/-- Greedy option: presence preferred. -/
def poptG {σ : Type} (p : Pat σ) : Pat σ := palt p peps

/-- Capture: run the inner pattern and hand the consumed characters to the
state update. -/
def pcap {σ : Type} (upd : String → σ → σ) (p : Pat σ) : Pat σ :=
  fun s st k =>
    p s st (fun s1 st1 =>
      k s1 (upd (String.mk (s.take (s.length - s1.length))) st1))

/-- Zero-width lookahead (?=p). -/
def plook {σ : Type} (p : Pat σ) : Pat σ :=
  fun s st k =>
    match p s st (fun s1 st1 => some (s1, st1)) with
    | some (_, st1) => k s st1
    | none => none

/-- End of input, the $ anchor. -/
def pend {σ : Type} : Pat σ :=
  fun s st k =>
    match s with
    | [] => k [] st
    | _ => none

def pmatchAt {σ : Type} (p : Pat σ) (init : σ) (s : List Char) :
    Option (List Char × σ) :=
  p s init (fun s1 st => some (s1, st))

/-- re.search: try the pattern at every start position, leftmost first, and
return the capture state of the first success. -/
def psearch {σ : Type} (p : Pat σ) (init : σ) : List Char → Option σ
  | [] =>
    (match pmatchAt p init [] with
     | some (_, st) => some st
     | none => none)
  | c :: r =>
    match pmatchAt p init (c :: r) with
    | some (_, st) => some st
    | none => psearch p init r

def wsPat {σ : Type} : Pat σ := pch isSp

def digPat {σ : Type} : Pat σ := pch Char.isDigit

def alphaPat {σ : Type} : Pat σ := pch Char.isAlpha

/-! The three field patterns of EmailParser.REGEX_PATTERNS that parse_email
uses, transliterated token by token. -/

/-- Sequence a list of patterns. -/
def pseqs {σ : Type} : List (Pat σ) → Pat σ
  | [] => peps
  | [p] => p
  | p :: q :: ps => pseq p (pseqs (q :: ps))

/-- order_id: order\s*#\s*(\d+), searched with re.IGNORECASE. -/
def orderIdPat : Pat String :=
  pseqs [plitCI "order", pstarG wsPat, pch (fun c => c == '#'), pstarG wsPat,
    pcap (fun g _ => g) (pplusG digPat)]

/-- The captured group of the date_received pattern:
[A-Za-z]+\s*\d+\s*\d*,?\s*\d{4}\s+\d+\s*\d*:?\d+\s*:?\d+\s*\d*\s*(?:AM|PM)\s+E[DS]T,
token by token in source order. -/
def dateReceivedGroup : Pat String :=
  pseqs [pplusG alphaPat, pstarG wsPat, pplusG digPat, pstarG wsPat,
    pstarG digPat, poptG (pch (fun c => c == ',')), pstarG wsPat,
    digPat, digPat, digPat, digPat,
    pplusG wsPat, pplusG digPat, pstarG wsPat, pstarG digPat,
    poptG (pch (fun c => c == ':')), pplusG digPat, pstarG wsPat,
    poptG (pch (fun c => c == ':')), pplusG digPat, pstarG wsPat,
    pstarG digPat, pstarG wsPat, palt (plit "AM") (plit "PM"),
    pplusG wsPat, pch (fun c => c == 'E'),
    pch (fun c => c == 'D' || c == 'S'), pch (fun c => c == 'T')]

/-- date_received: Received\s*At:?\s*( the group above ). -/
def dateReceivedPat : Pat String :=
  pseqs [plit "Received", pstarG wsPat, plit "At",
    poptG (pch (fun c => c == ':')), pstarG wsPat,
    pcap (fun g _ => g) dateReceivedGroup]

/-- order_type: Submitted\s+Order\s+T?ype:?\s*([^\n]+?)(?=\s*Fill|$). -/
def orderTypePat : Pat String :=
  pseqs [plit "Submitted", pplusG wsPat, plit "Order", pplusG wsPat,
    poptG (pch (fun c => c == 'T')), plit "ype",
    poptG (pch (fun c => c == ':')), pstarG wsPat,
    pcap (fun g _ => g) (pplusL (pch (fun c => !(c == '\n')))),
    plook (palt (pseq (pstarG wsPat) (plit "Fill")) pend)]

def searchOrderId (c : List Char) : Option String := psearch orderIdPat "" c

def searchDateReceived (c : List Char) : Option String :=
  psearch dateReceivedPat "" c

def searchOrderType (c : List Char) : Option String := psearch orderTypePat "" c

/-! The leg-block extraction and leg splitting of EmailParser.parse_email. -/

/-- The prefix Fill\s+Details anchored at the current position. -/
def fillDetailsAt (s : List Char) : Option (List Char) :=
  match litP "Fill".toList s with
  | none => none
  | some s1 =>
    match wsRun1 s1 with
    | none => none
    | some s2 => litP "Details".toList s2

/-- Leftmost search for Fill\s+Details, returning the rest of the input
after the label. -/
def findFillDetails : List Char → Option (List Char)
  | [] => none
  | s@(_ :: r) =>
    match fillDetailsAt s with
    | some rest => some rest
    | none => findFillDetails r

/-- The lazy capture (.*?) terminated by (?:If you have any questions|$):
everything before the first occurrence of the disclaimer literal, or the
whole rest when the literal never occurs. -/
def takeUntilLit (lit : List Char) : List Char → List Char
  | [] => []
  | s@(c :: r) =>
    match litP lit s with
    | some _ => []
    | none => c :: takeUntilLit lit r

/-- The zero-width split position test (?=(?:Bought|Sold)\s+\d+\s+[A-Z]+). -/
def legStartTest (s : List Char) : Bool :=
  (do
    let (_, s1) ← pAction s
    let s2 ← wsRun1 s1
    let (_, s3) ← digitsRun1 s2
    let s4 ← wsRun1 s3
    let (_, _) ← upperRun1 s4
    pure ()).isSome

/-- re.split on the zero-width pattern above: a piece ends wherever the
lookahead holds, and scanning resumes one character later. -/
def splitLegsAux : List Char → List Char → List (List Char)
  | [], acc => [acc.reverse]
  | s@(c :: r), acc =>
    if legStartTest s then acc.reverse :: splitLegsAux r [c]
    else splitLegsAux r (c :: acc)

def splitLegs (s : List Char) : List (List Char) := splitLegsAux s []

/-- The re.search for a bare Bought|Sold used to filter split pieces. -/
def containsAction : List Char → Bool
  | [] => false
  | s@(_ :: r) =>
    match pAction s with
    | some _ => true
    | none => containsAction r

/-- The leg sections parse_email builds: the text between the Fill Details
label and the disclaimer (or the end), split before every leg head, each
piece stripped, empty pieces dropped, and pieces without an action word
discarded. -/
def legSectionsOf (c : List Char) : List String :=
  match findFillDetails c with
  | none => []
  | some rest =>
    let fc := takeUntilLit "If you have any questions".toList rest
    ((((splitLegs fc).map stripL).filter (fun p => !(p.isEmpty))).filter
      containsAction).map String.mk

/-- The leg loop: parse each section, catch ValueError and skip the leg, let
any other exception (the KeyError of the missing fill_time pattern)
propagate. -/
def legLoop : List String → List TradeLeg → Except PyErr (List TradeLeg)
  | [], acc => .ok acc.reverse
  | s :: r, acc =>
    match parse_leg s with
    | .ok leg => legLoop r (leg :: acc)
    | .error (.valueError _) => legLoop r acc
    | .error e => .error e

/-- The initial cleanup of parse_email: newlines and carriage returns become
spaces, then split and single-space join. -/
def cleanContent (content : String) : List Char :=
  collapseL (content.toList.map
    (fun ch => if ch = '\n' ∨ ch = '\r' then ' ' else ch))

/-- EmailParser.parse_email. -/
def parse_email (content : String) : Except PyErr Trade :=
  match searchOrderId (cleanContent content) with
  | none => .error (.valueError "No order ID found")
  | some order_id =>
  match searchDateReceived (cleanContent content) with
  | none => .error (.valueError "No date received found")
  | some drs =>
  match parse_datetime drs with
  | .error e => .error e
  | .ok date_received =>
  match searchOrderType (cleanContent content) with
  | none => .error (.valueError "No order type found")
  | some ots =>
  match legSectionsOf (cleanContent content) with
  | [] => .error (.valueError "No trade legs found")
  | ls =>
    match legLoop ls [] with
    | .error e => .error e
    | .ok legs =>
      match legs with
      | [] => .error (.valueError "No valid legs parsed")
      | _ =>
        .ok { order_id := order_id, date_received := date_received,
              order_type := stripS ots, legs := legs }

/-! TradeProcessor.preprocess_pdf_text, substitution by substitution. -/

/-- Received\s+At replaced by the label with a colon. -/
def recvAtFixAt (s : List Char) : Option (String × List Char) :=
  match litP "Received".toList s with
  | none => none
  | some s1 =>
    match wsRun1 s1 with
    | none => none
    | some s2 =>
      match litP "At".toList s2 with
      | none => none
      | some s3 => some ("Received At:", s3)

/-- Order\s+T\s*ype replaced by the label with a colon. -/
def orderTypeFixAt (s : List Char) : Option (String × List Char) :=
  match litP "Order".toList s with
  | none => none
  | some s1 =>
    match wsRun1 s1 with
    | none => none
    | some s2 =>
      match s2 with
      | 'T' :: s3 =>
        match litP "ype".toList (s3.dropWhile isSp) with
        | none => none
        | some s4 => some ("Order Type:", s4)
      | _ => none

/-- Filled\s+at:+ normalized to a single colon. -/
def filledAtFixAt (s : List Char) : Option (String × List Char) :=
  match litP "Filled".toList s with
  | none => none
  | some s1 =>
    match wsRun1 s1 with
    | none => none
    | some s2 =>
      match litP "at".toList s2 with
      | none => none
      | some s3 =>
        match s3 with
        | ':' :: s4 => some ("Filled at:", s4.dropWhile (fun c => c = ':'))
        | _ => none

/-- T\s+ype glued back to Type. -/
def typeGlueAt (s : List Char) : Option (String × List Char) :=
  match s with
  | 'T' :: s1 =>
    match wsRun1 s1 with
    | none => none
    | some s2 =>
      match litP "ype".toList s2 with
      | none => none
      | some s3 => some ("Type", s3)
  | _ => none

/-- A run of colons collapsed to one. -/
def colonRunAt (s : List Char) : Option (String × List Char) :=
  match s with
  | ':' :: s1 => some (":", s1.dropWhile (fun c => c = ':'))
  | _ => none

/-- The \S+ tail of the hyperlink pattern: at least one non-space character,
then the maximal run. -/
def nonSpRun1 : List Char → Option (List Char)
  | [] => none
  | c :: r => if notSp c then some (r.dropWhile notSp) else none

/-- https?://\S+ stripped. -/
def urlAt (s : List Char) : Option (String × List Char) :=
  match litP "http".toList s with
  | none => none
  | some s1 =>
    match
      (match s1 with
       | 's' :: s2 => litP "://".toList s2
       | _ => none) with
    | some s3 =>
      (match nonSpRun1 s3 with
       | some s4 => some ("", s4)
       | none => none)
    | none =>
      match litP "://".toList s1 with
      | some s3 =>
        (match nonSpRun1 s3 with
         | some s4 => some ("", s4)
         | none => none)
      | none => none

/-- The stray footer timestamp \d{1,2}/\d{1,2}/\d{4},\s+\d{1,2}:\d{2}
stripped.  As in pDate, each bounded digit quantifier sits before a non-digit
requirement, so it must swallow a whole maximal run of the right length; the
final \d{2} ends the pattern and simply takes two digits. -/
def footTsAt (s : List Char) : Option (String × List Char) :=
  match digitsRun1 s with
  | none => none
  | some (m, s1) =>
    if m.length ≤ 2 then
      match s1 with
      | '/' :: s2 =>
        match digitsRun1 s2 with
        | none => none
        | some (d, s3) =>
          if d.length ≤ 2 then
            match s3 with
            | '/' :: s4 =>
              match digitsRun1 s4 with
              | none => none
              | some (y, s5) =>
                if y.length = 4 then
                  match s5 with
                  | ',' :: s6 =>
                    match wsRun1 s6 with
                    | none => none
                    | some s7 =>
                      match digitsRun1 s7 with
                      | none => none
                      | some (h, s8) =>
                        if h.length ≤ 2 then
                          match s8 with
                          | ':' :: c1 :: c2 :: s9 =>
                            if c1.isDigit ∧ c2.isDigit then some ("", s9)
                            else none
                          | _ => none
                        else none
                  | _ => none
                else none
            | _ => none
          else none
      | _ => none
    else none

/-- The five label and punctuation repairs of preprocess_pdf_text, in source
order, before the whitespace collapse. -/
def ppSteps (l : List Char) : List Char :=
  runSub colonRunAt (runSub typeGlueAt (runSub filledAtFixAt
    (runSub orderTypeFixAt (runSub recvAtFixAt l))))

/-- TradeProcessor.preprocess_pdf_text: label repairs, whitespace collapse,
then hyperlink and stray-timestamp stripping. -/
def preprocess_pdf_text (text : String) : String :=
  String.mk (runSub footTsAt (runSub urlAt (collapseL (ppSteps text.toList))))

/-! Theorems.  First the supporting lemmas, then one theorem per claim. -/

theorem splitWsAcc_append_tok (t : List Char) (rest acc : List Char)
    (ht : ∀ c ∈ t, isSp c = false) :
    splitWsAcc (t ++ rest) acc = splitWsAcc rest (t.reverse ++ acc) := by
  induction t generalizing acc with
  | nil => simp
  | cons c t ih =>
    have hc : isSp c = false := ht c (List.mem_cons_self c t)
    have h1 : splitWsAcc ((c :: t) ++ rest) acc = splitWsAcc (t ++ rest) (c :: acc) := by
      show splitWsAcc (c :: (t ++ rest)) acc = _
      simp [splitWsAcc, hc]
    rw [h1, ih _ (fun d hd => ht d (List.mem_cons_of_mem c hd))]
    simp [List.reverse_cons, List.append_assoc]

theorem splitWsL_joinSp (ts : List (List Char))
    (h : ∀ t ∈ ts, t ≠ [] ∧ ∀ c ∈ t, isSp c = false) :
    splitWsL (joinSp ts) = ts := by
  induction ts with
  | nil => simp [splitWsL, joinSp, splitWsAcc]
  | cons t ts ih =>
    obtain ⟨hne, hch⟩ := h t (List.mem_cons_self t ts)
    cases ts with
    | nil =>
      have : joinSp [t] = t ++ [] := by simp [joinSp]
      rw [this, splitWsL, splitWsAcc_append_tok t [] [] hch]
      simp [splitWsAcc, hne]
    | cons u ts2 =>
      have hj : joinSp (t :: u :: ts2) = t ++ ' ' :: joinSp (u :: ts2) := rfl
      rw [hj, splitWsL, splitWsAcc_append_tok t _ [] hch]
      have hsp : isSp ' ' = true := rfl
      have hrevne : t.reverse ++ [] ≠ [] := by simpa using hne
      simp only [splitWsAcc, hsp, if_true, List.append_nil]
      rw [if_neg (by simpa using hne)]
      have := ih (fun u hu => h u (List.mem_cons_of_mem t hu))
      simp only [splitWsL] at this
      rw [this]
      simp

theorem splitWsAcc_tokens_good (l : List Char) (acc : List Char)
    (hacc : ∀ c ∈ acc, isSp c = false) :
    ∀ t ∈ splitWsAcc l acc, t ≠ [] ∧ ∀ c ∈ t, isSp c = false := by
  induction l generalizing acc with
  | nil =>
    intro t ht
    simp only [splitWsAcc] at ht
    by_cases h : acc = []
    · simp [h] at ht
    · rw [if_neg h] at ht
      simp only [List.mem_singleton] at ht
      subst ht
      constructor
      · simpa using h
      · intro c hc
        exact hacc c (List.mem_reverse.mp hc)
  | cons c r ih =>
    intro t ht
    simp only [splitWsAcc] at ht
    by_cases hc : isSp c = true
    · rw [if_pos hc] at ht
      by_cases h : acc = []
      · rw [if_pos h] at ht
        exact ih [] (by simp) t ht
      · rw [if_neg h] at ht
        rcases List.mem_cons.mp ht with rfl | ht2
        · constructor
          · simpa using h
          · intro d hd
            exact hacc d (List.mem_reverse.mp hd)
        · exact ih [] (by simp) t ht2
    · rw [if_neg hc] at ht
      refine ih (c :: acc) ?_ t ht
      intro d hd
      rcases List.mem_cons.mp hd with rfl | hd2
      · simpa using hc
      · exact hacc d hd2

theorem collapseL_idem (l : List Char) : collapseL (collapseL l) = collapseL l := by
  unfold collapseL
  congr 1
  exact splitWsL_joinSp (splitWsL l) (splitWsAcc_tokens_good l [] (by simp))

set_option maxRecDepth 100000

deriving instance DecidableEq for Except

/-! Concrete inputs used as failing inputs, counterexamples and witnesses. -/

/-- A plain-security (stock) leg segment: well-formed action, quantity,
symbol, fill price and fill time, and no option triple. -/
def c1StockLeg : String :=
  "Bought 100 AAPL @ 150.25 Filled at: Jan 5, 2024 9:30:00 AM EST"

/-- An option leg that matches LEG_PATTERN but carries no Filled-at clause. -/
def c2LegText : String := "Bought 1 SPY 01/17/25 Put 400 @ 2.50"

def c2Groups : LegGroups :=
  { action := "Bought", qty := "1", symbol := "SPY", exp := "01/17/25",
    optType := "Put", strike := "400", price := "2.50", fillTime := none }

/-- A canonical text with one well-formed leg. -/
def c3GoodText : String :=
  "order # 123456789 Received At: Jan 5, 2024 9:30:00 AM EST Submitted Order Type: Limit Fill Details Bought 1 SPY 01/17/25 Put 400 @ 2.50 Filled at: Jan 5, 2024 9:30:00 AM EST If you have any questions"

/-- The same canonical text with one extra malformed leg segment (an option
leg that matches the leg grammar but has no resolvable fill time). -/
def c3BadText : String :=
  "order # 123456789 Received At: Jan 5, 2024 9:30:00 AM EST Submitted Order Type: Limit Fill Details Bought 1 SPY 01/17/25 Put 400 @ 2.50 Filled at: Jan 5, 2024 9:30:00 AM EST Bought 2 QQQ 01/17/25 Call 500 @ 1.00 If you have any questions"

def c3Leg : TradeLeg :=
  { action := "Bought", quantity := 1, symbol := "SPY",
    expiration := some ⟨2025, 1, 17, 0, 0, 0⟩, option_type := some "Put",
    strike := some (mkRat 400 1), fill_price := mkRat 5 2,
    fill_time := ⟨2024, 1, 5, 9, 30, 0⟩ }

def c3Trade : Trade :=
  { order_id := "123456789", date_received := ⟨2024, 1, 5, 9, 30, 0⟩,
    order_type := "Limit", legs := [c3Leg] }

/-- The counterexample input of the idempotence claim: a hyperlink flanked
by single spaces. -/
def c4Text : String := "a https://b c"

/-- A witness input on which the stripping steps find nothing and the label
repairs leave the normalized text unchanged. -/
def c4wText : String := "Received At: Jan"

/-- A well-formed option leg used as witness input. -/
def c7LegText : String :=
  "Bought 1 SPY 01/17/25 Put 400 @ 2.50 Filled at: Jan 5, 2024 9:30:00 AM EST"

def c7Leg : TradeLeg :=
  { action := "Bought", quantity := 1, symbol := "SPY",
    expiration := some ⟨2025, 1, 17, 0, 0, 0⟩, option_type := some "Put",
    strike := some (mkRat 400 1), fill_price := mkRat 5 2,
    fill_time := ⟨2024, 1, 5, 9, 30, 0⟩ }

/-- A leg segment with quantity zero, otherwise identical to c7LegText. -/
def c9LegText : String :=
  "Bought 0 SPY 01/17/25 Put 400 @ 2.50 Filled at: Jan 5, 2024 9:30:00 AM EST"

def c9Leg : TradeLeg :=
  { action := "Bought", quantity := 0, symbol := "SPY",
    expiration := some ⟨2025, 1, 17, 0, 0, 0⟩, option_type := some "Put",
    strike := some (mkRat 400 1), fill_price := mkRat 5 2,
    fill_time := ⟨2024, 1, 5, 9, 30, 0⟩ }

/-- A leg whose expiration date carries a four-digit year and which carries
no fill time: LEG_PATTERN accepts it, and parse_leg dies on the missing
fill time before it ever reaches the expiration. -/
def c10nfText : String := "Bought 1 SPY 01/17/2025 Put 400 @ 2.50"

def c10nfGroups : LegGroups :=
  { action := "Bought", qty := "1", symbol := "SPY", exp := "01/17/2025",
    optType := "Put", strike := "400", price := "2.50", fillTime := none }

/-- A leg whose expiration date carries a four-digit year together with a
fill time. -/
def c10wText : String :=
  "Bought 1 SPY 01/17/2025 Put 400 @ 2.50 Filled at: Jan 5, 2024 9:30:00 AM EST"

def c10wGroups : LegGroups :=
  { action := "Bought", qty := "1", symbol := "SPY", exp := "01/17/2025",
    optType := "Put", strike := "400", price := "2.50",
    fillTime := some "Jan 5, 2024 9:30:00 AM EST" }

/-! Properties of the leg matcher: the mandatory groups of LEG_PATTERN are
never empty, and the option-type group is one of the two literals. -/

theorem string_mk_cons_ne_empty (c : Char) (l : List Char) :
    String.mk (c :: l) ≠ "" := by
  intro h
  exact List.cons_ne_nil c l (by simpa using congrArg String.data h)

theorem string_append_ne_empty_left {a : String} (b : String) (h : a ≠ "") :
    a ++ b ≠ "" := by
  intro hab
  apply h
  have hd := congrArg String.data hab
  rw [String.data_append] at hd
  exact String.ext (List.append_eq_nil.mp (by simpa using hd)).1

theorem digitsRun1_ne_empty {s : List Char} {d : String} {r : List Char}
    (h : digitsRun1 s = some (d, r)) : d ≠ "" := by
  cases s with
  | nil => simp [digitsRun1] at h
  | cons c t =>
    simp only [digitsRun1] at h
    by_cases hc : c.isDigit
    · rw [if_pos hc] at h
      obtain ⟨h1, _⟩ := Prod.mk.injEq .. ▸ Option.some.injEq .. ▸ h
      exact h1 ▸ string_mk_cons_ne_empty c (t.takeWhile Char.isDigit)
    · simp [hc] at h

theorem pOpt_val {s : List Char} {t : String} {r : List Char}
    (h : pOpt s = some (t, r)) : t = "Put" ∨ t = "Call" := by
  unfold pOpt at h
  cases h1 : litP "Put".toList s with
  | some r1 =>
    rw [h1] at h
    exact Or.inl (by injection h with h2; exact (congrArg Prod.fst h2).symm)
  | none =>
    rw [h1] at h
    cases h2 : litP "Call".toList s with
    | some r2 =>
      rw [h2] at h
      exact Or.inr (by injection h with h3; exact (congrArg Prod.fst h3).symm)
    | none => rw [h2] at h; exact absurd h (by simp)


theorem numTok_ne_empty {s : List Char} {t : String} {r : List Char}
    (h : numTok s = some (t, r)) : t ≠ "" := by
  unfold numTok at h
  cases h1 : digitsRun1 s with
  | none => rw [h1] at h; exact absurd h (by simp)
  | some pr =>
    obtain ⟨d1, s1⟩ := pr
    rw [h1] at h
    have hd1 : d1 ≠ "" := digitsRun1_ne_empty h1
    cases s1 with
    | nil => simp only at h; cases h; exact hd1
    | cons c s2 =>
      simp only at h
      by_cases hc : c = '.'
      · rw [if_pos hc] at h
        cases h
        exact string_append_ne_empty_left _ (string_append_ne_empty_left _ hd1)
      · rw [if_neg hc] at h
        cases h
        exact hd1

theorem pDate_ne_empty {s : List Char} {e : String} {r : List Char}
    (h : pDate s = some (e, r)) : e ≠ "" := by
  unfold pDate at h
  cases h1 : digitsRun1 s with
  | none => rw [h1] at h; exact absurd h (by simp)
  | some pr =>
    obtain ⟨m, s1⟩ := pr
    rw [h1] at h
    simp only at h
    have hm : m ≠ "" := digitsRun1_ne_empty h1
    by_cases hl : m.length ≤ 2
    · rw [if_pos hl] at h
      cases s1 with
      | nil => simp only at h; exact absurd h (by simp)
      | cons c1 s2 =>
        simp only at h
        by_cases hc1 : c1 = '/'
        · rw [if_pos hc1] at h
          cases h2 : digitsRun1 s2 with
          | none => rw [h2] at h; exact absurd h (by simp)
          | some pr2 =>
            obtain ⟨d, s3⟩ := pr2
            rw [h2] at h
            simp only at h
            by_cases hld : d.length ≤ 2
            · rw [if_pos hld] at h
              cases s3 with
              | nil => simp only at h; exact absurd h (by simp)
              | cons c2 s4 =>
                simp only at h
                by_cases hc2 : c2 = '/'
                · rw [if_pos hc2] at h
                  cases h3 : digitsRun1 s4 with
                  | none => rw [h3] at h; exact absurd h (by simp)
                  | some pr3 =>
                    obtain ⟨y, s5⟩ := pr3
                    rw [h3] at h
                    simp only at h
                    by_cases hly : 2 ≤ y.length ∧ y.length ≤ 4
                    · rw [if_pos hly] at h
                      cases h
                      exact string_append_ne_empty_left _
                        (string_append_ne_empty_left _
                          (string_append_ne_empty_left _
                            (string_append_ne_empty_left _ hm)))
                    · rw [if_neg hly] at h; exact absurd h (by simp)
                · rw [if_neg hc2] at h; exact absurd h (by simp)
            · rw [if_neg hld] at h; exact absurd h (by simp)
        · rw [if_neg hc1] at h; exact absurd h (by simp)
    · rw [if_neg hl] at h; exact absurd h (by simp)

theorem starNumsDateTail_exp {s : List Char} {e : String} {r : List Char}
    (h : starNumsDateTail s = some (e, r)) : e ≠ "" := by
  unfold starNumsDateTail at h
  cases h1 : wsRun1 s with
  | none => rw [h1] at h; exact absurd h (by simp)
  | some s1 => rw [h1] at h; exact pDate_ne_empty h

theorem starNumsAux_exp {f : Nat} :
    ∀ {s : List Char} {e : String} {r : List Char},
      starNumsAux f s = some (e, r) → e ≠ "" := by
  induction f with
  | zero => intro s e r h; simp [starNumsAux] at h
  | succ f ih =>
    intro s e r h
    unfold starNumsAux at h
    cases h1 : wsRun1 s with
    | none =>
      rw [h1] at h
      simp only at h
      exact starNumsDateTail_exp h
    | some s1 =>
      rw [h1] at h
      simp only at h
      cases h2 : digitsRun1 s1 with
      | none =>
        rw [h2] at h
        simp only at h
        exact starNumsDateTail_exp h
      | some pr =>
        obtain ⟨d, s2⟩ := pr
        rw [h2] at h
        simp only at h
        cases h3 : starNumsAux f s2 with
        | none => rw [h3] at h; exact starNumsDateTail_exp h
        | some pr2 =>
          rw [h3] at h
          obtain ⟨e2, r2⟩ := pr2
          cases h
          exact ih h3

theorem legMatchAt_props {s : List Char} {g : LegGroups} (h : legMatchAt s = some g) :
    g.exp ≠ "" ∧ (g.optType = "Put" ∨ g.optType = "Call") ∧ g.strike ≠ "" := by
  simp only [legMatchAt, Option.pure_def, Option.bind_eq_bind, Option.bind_eq_some,
    Option.some.injEq] at h
  obtain ⟨⟨act, s1⟩, h1, s2, h2, ⟨q, s3⟩, h3, s4, h4, ⟨sym, s5⟩, h5, ⟨exp, s6⟩, h6,
    s7, h7, ⟨ot, s8⟩, h8, s9, h9, ⟨stk, s10⟩, h10, s11, h11, s12, h12, s13, h13,
    ⟨pr, s14⟩, h14, hg⟩ := h
  subst hg
  exact ⟨starNumsAux_exp h6, pOpt_val h8, numTok_ne_empty h10⟩

theorem legSearchAux_props {l : List Char} {g : LegGroups}
    (h : legSearchAux l = some g) :
    g.exp ≠ "" ∧ (g.optType = "Put" ∨ g.optType = "Call") ∧ g.strike ≠ "" := by
  induction l with
  | nil => simp [legSearchAux] at h
  | cons c r ih =>
    unfold legSearchAux at h
    cases hm : legMatchAt (c :: r) with
    | some g2 =>
      rw [hm] at h
      cases h
      exact legMatchAt_props hm
    | none =>
      rw [hm] at h
      exact ih h

/-- Shape of every successfully parsed leg: the three option fields are
populated, and the quantity is the integer value of a digit string. -/
theorem parse_leg_ok_fields {s : String} {leg : TradeLeg}
    (h : parse_leg s = .ok leg) :
    leg.option_type.isSome ∧ leg.strike.isSome ∧ leg.expiration.isSome ∧
    ∃ n : Nat, leg.quantity = (n : Int) := by
  unfold parse_leg at h
  cases hs : legSearchAux s.toList with
  | none => rw [hs] at h; exact absurd h (by simp)
  | some g =>
    rw [hs] at h
    simp only at h
    obtain ⟨hexp, hopt, hstk⟩ := legSearchAux_props hs
    cases hft : g.fillTime with
    | none => rw [hft] at h; simp only at h; exact absurd h (by simp)
    | some ft =>
      rw [hft] at h
      simp only at h
      by_cases hfe : ft = ""
      · rw [if_pos hfe] at h; exact absurd h (by simp)
      · rw [if_neg hfe] at h
        simp only at h
        rw [if_neg hexp] at h
        cases hsm : strptimeMdy g.exp with
        | error e =>
          rw [hsm] at h
          simp only [Except.map] at h
          exact absurd h (by simp)
        | ok d =>
          rw [hsm] at h
          simp only [Except.map] at h
          cases hpd : parse_datetime ft with
          | error e => rw [hpd] at h; exact absurd h (by simp)
          | ok ftd =>
            rw [hpd] at h
            cases h
            have hone : g.optType ≠ "" := by
              rcases hopt with h1 | h1 <;> rw [h1] <;> decide
            refine ⟨?_, ?_, ?_, ⟨natOfDigitsStr g.qty, rfl⟩⟩
            · simp [if_neg hone]
            · simp [if_neg hstk]
            · simp

/-- C7: every TradeLeg returned by parse_leg satisfies the all-or-none
invariant on option_type, strike and expiration.  LEG_PATTERN makes the
option triple mandatory, so the three fields are in fact always present. -/
theorem c7_option_triple_all_or_none (s : String) (leg : TradeLeg)
    (h : parse_leg s = .ok leg) :
    (leg.option_type.isSome ∧ leg.strike.isSome ∧ leg.expiration.isSome) ∨
    (leg.option_type = none ∧ leg.strike = none ∧ leg.expiration = none) := by
  obtain ⟨h1, h2, h3, _⟩ := parse_leg_ok_fields h
  exact Or.inl ⟨h1, h2, h3⟩

/-- C7 witness: the invariant instantiated at a concrete option leg. -/
theorem c7_witness :
    parse_leg c7LegText = .ok c7Leg ∧
    ((c7Leg.option_type.isSome ∧ c7Leg.strike.isSome ∧ c7Leg.expiration.isSome) ∨
     (c7Leg.option_type = none ∧ c7Leg.strike = none ∧ c7Leg.expiration = none)) :=
  ⟨by decide, c7_option_triple_all_or_none c7LegText c7Leg (by decide)⟩

/-- C9 (amended): every TradeLeg returned by parse_leg has a non-negative
integer quantity; parse_leg performs no positivity check, so quantity zero
is accepted (see the counterexample below). -/
theorem c9_quantity_nonneg (s : String) (leg : TradeLeg)
    (h : parse_leg s = .ok leg) : 0 ≤ leg.quantity := by
  obtain ⟨_, _, _, n, hn⟩ := parse_leg_ok_fields h
  rw [hn]
  exact Int.ofNat_nonneg n

/-- C9 counterexample: a leg segment with quantity token 0 parses
successfully to a TradeLeg of quantity zero, refuting the strict-positivity
claim. -/
theorem c9_counterexample :
    parse_leg c9LegText = .ok c9Leg ∧ c9Leg.quantity = 0 :=
  ⟨by decide, by decide⟩

/-- C9 witness: non-negativity instantiated at the concrete zero-quantity
leg. -/
theorem c9_witness :
    parse_leg c9LegText = .ok c9Leg ∧ 0 ≤ c9Leg.quantity :=
  ⟨by decide, c9_quantity_nonneg c9LegText c9Leg (by decide)⟩

/-- C6: on every text whose cleaned content has no order-id label match,
parse_email fails with the missing-order-id ValueError and returns no Trade. -/
theorem c6_missing_order_id (content : String)
    (h : searchOrderId (cleanContent content) = none) :
    parse_email content = .error (.valueError "No order ID found") := by
  unfold parse_email
  rw [h]

/-- C6 witness: a concrete text without an order-id label. -/
theorem c6_witness :
    searchOrderId (cleanContent "hello") = none ∧
    parse_email "hello" = .error (.valueError "No order ID found") :=
  ⟨by decide, c6_missing_order_id "hello" (by decide)⟩

/-- C1: code-bug evidence.  LEG_PATTERN makes the expiration, option-type
and strike groups mandatory, so a well-formed plain-security leg (action,
quantity, symbol, fill price and fill time present, option triple absent)
does not match anywhere in the segment, and parse_leg raises the
invalid-leg ValueError instead of returning a TradeLeg with the three
option fields null. -/
theorem c1_plain_security_leg_raises :
    legSearchAux c1StockLeg.toList = none ∧
    parse_leg c1StockLeg =
      .error (.valueError ("Invalid leg format: " ++ c1StockLeg)) :=
  ⟨by decide, by decide⟩

/-- C2: code-bug evidence.  A segment that matches LEG_PATTERN with the
optional fill-time group absent sends parse_leg into the fallback branch,
where subscripting REGEX_PATTERNS with the undefined key fill_time raises
KeyError, not the claimed InvalidLegError (ValueError). -/
theorem c2_fill_time_fallback_keyerror :
    legSearchAux c2LegText.toList = some c2Groups ∧ c2Groups.fillTime = none ∧
    parse_leg c2LegText = .error (.keyError "fill_time") :=
  ⟨by decide, by decide, by decide⟩

/-- C8: the split-AM artifact is repaired before parsing, so the two inputs
parse to exactly the same timestamp. -/
theorem c8_split_am_artifact :
    parse_datetime "Jan 5, 2024 9:30:00 A M EST" =
      parse_datetime "Jan 5, 2024 9:30:00 AM EST" ∧
    parse_datetime "Jan 5, 2024 9:30:00 AM EST" = .ok ⟨2024, 1, 5, 9, 30, 0⟩ :=
  ⟨by decide, by decide⟩

/-- C3: code-bug evidence.  The canonical text with one well-formed leg
extracts to a one-leg Trade, but adding a single malformed leg segment (it
matches the leg grammar and lacks a resolvable fill time) makes the whole
extraction fail with the uncaught KeyError instead of skipping that leg. -/
theorem c3_malformed_leg_aborts :
    parse_email c3GoodText = .ok c3Trade ∧
    parse_email c3BadText = .error (.keyError "fill_time") :=
  ⟨by decide, by decide⟩

theorem isDigit_ne_slash {c : Char} (h : c.isDigit = true) : ¬(c = '/') := by
  intro he
  subst he
  exact absurd h (by decide)

theorem pNum12_digits_slash (mc : List Char) (rest : List Char)
    (h1 : mc ≠ []) (h2 : mc.length ≤ 2) (hd : ∀ c ∈ mc, c.isDigit = true) :
    pNum12 (mc ++ '/' :: rest) = none ∨
    (∃ v, pNum12 (mc ++ '/' :: rest) = some (v, '/' :: rest)) ∨
    (∃ v c, c.isDigit = true ∧ pNum12 (mc ++ '/' :: rest) = some (v, c :: '/' :: rest)) := by
  rcases mc with _ | ⟨c1, _ | ⟨c2, _ | ⟨c3, t⟩⟩⟩
  · exact absurd rfl h1
  · have e : ([c1] ++ '/' :: rest) = c1 :: '/' :: rest := rfl
    rw [e]
    simp only [pNum12]
    split_ifs with ha hb hc
    · exact absurd ha.2.1 (by decide)
    · exact absurd hb.2.1 (by decide)
    · exact Or.inr (Or.inl ⟨digitVal c1, rfl⟩)
    · exact Or.inl rfl
  · have e : ([c1, c2] ++ '/' :: rest) = c1 :: c2 :: '/' :: rest := rfl
    rw [e]
    simp only [pNum12]
    split_ifs with ha hb hc
    · exact Or.inr (Or.inl ⟨10 + digitVal c2, rfl⟩)
    · exact Or.inr (Or.inl ⟨digitVal c2, rfl⟩)
    · exact Or.inr (Or.inr ⟨digitVal c1, c2, hd c2 (by simp), rfl⟩)
    · exact Or.inl rfl
  · simp at h2

theorem pDayNum_digits_slash (dc : List Char) (rest : List Char)
    (h1 : dc ≠ []) (h2 : dc.length ≤ 2) (hd : ∀ c ∈ dc, c.isDigit = true) :
    pDayNum (dc ++ '/' :: rest) = none ∨
    (∃ v, pDayNum (dc ++ '/' :: rest) = some (v, '/' :: rest)) ∨
    (∃ v c, c.isDigit = true ∧ pDayNum (dc ++ '/' :: rest) = some (v, c :: '/' :: rest)) := by
  rcases dc with _ | ⟨c1, _ | ⟨c2, _ | ⟨c3, t⟩⟩⟩
  · exact absurd rfl h1
  · have e : ([c1] ++ '/' :: rest) = c1 :: '/' :: rest := rfl
    rw [e]
    simp only [pDayNum]
    split_ifs with ha hb hc hd4
    · rcases ha.2 with h | h <;> exact absurd h (by decide)
    · exact absurd hb.2 (by decide)
    · exact absurd hc.2.1 (by decide)
    · exact Or.inr (Or.inl ⟨digitVal c1, rfl⟩)
    · exact Or.inl rfl
  · have e : ([c1, c2] ++ '/' :: rest) = c1 :: c2 :: '/' :: rest := rfl
    rw [e]
    simp only [pDayNum]
    split_ifs with ha hb hc hd4
    · exact Or.inr (Or.inl ⟨30 + digitVal c2, rfl⟩)
    · exact Or.inr (Or.inl ⟨10 * digitVal c1 + digitVal c2, rfl⟩)
    · exact Or.inr (Or.inl ⟨digitVal c2, rfl⟩)
    · exact Or.inr (Or.inr ⟨digitVal c1, c2, hd c2 (by simp), rfl⟩)
    · exact Or.inl rfl
  · simp at h2

theorem mdySlash1_digit (e : String) (mo : Nat) {c : Char} (s : List Char)
    (hc : c.isDigit = true) : mdySlash1 e mo (c :: s) = mdyErr e := by
  simp only [mdySlash1]
  rw [if_neg (isDigit_ne_slash hc)]

theorem mdySlash2_digit (e : String) (mo d : Nat) {c : Char} (s : List Char)
    (hc : c.isDigit = true) : mdySlash2 e mo d (c :: s) = mdyErr e := by
  simp only [mdySlash2]
  rw [if_neg (isDigit_ne_slash hc)]

theorem strptimeMdy_year4 (e : String) (mc dc yc : List Char)
    (he : e.toList = mc ++ '/' :: (dc ++ '/' :: yc))
    (hm1 : mc ≠ []) (hm2 : mc.length ≤ 2) (hmd : ∀ c ∈ mc, c.isDigit = true)
    (hd1 : dc ≠ []) (hd2 : dc.length ≤ 2) (hdd : ∀ c ∈ dc, c.isDigit = true)
    (hy : yc.length = 4) (hyd : ∀ c ∈ yc, c.isDigit = true) :
    ∃ msg, strptimeMdy e = .error (.valueError msg) := by
  unfold strptimeMdy
  rw [he]
  rcases pNum12_digits_slash mc (dc ++ '/' :: yc) hm1 hm2 hmd with hn | ⟨v, hn⟩ | ⟨v, c, hcd, hn⟩
  · rw [hn]
    exact ⟨_, rfl⟩
  · rw [hn]
    show ∃ msg, mdyDay e v (dc ++ '/' :: yc) = .error (.valueError msg)
    unfold mdyDay
    rcases pDayNum_digits_slash dc yc hd1 hd2 hdd with hn2 | ⟨v2, hn2⟩ | ⟨v2, c2, hcd2, hn2⟩
    · rw [hn2]
      exact ⟨_, rfl⟩
    · rw [hn2]
      show ∃ msg, mdyYear e v v2 yc = .error (.valueError msg)
      rcases yc with _ | ⟨y1, _ | ⟨y2, _ | ⟨y3, _ | ⟨y4, _ | ⟨y5, t⟩⟩⟩⟩⟩ <;> simp at hy
      have h1 : y1.isDigit = true := hyd y1 (by simp)
      have h2 : y2.isDigit = true := hyd y2 (by simp)
      unfold mdyYear
      simp only [pYear2]
      rw [if_pos ⟨h1, h2⟩]
      simp only
      rw [if_neg (by simp : ¬([y3, y4] = ([] : List Char)))]
      exact ⟨_, rfl⟩
    · rw [hn2]
      show ∃ msg, mdySlash2 e v v2 (c2 :: '/' :: yc) = .error (.valueError msg)
      rw [mdySlash2_digit e v v2 _ hcd2]
      exact ⟨_, rfl⟩
  · rw [hn]
    show ∃ msg, mdySlash1 e v (c :: '/' :: (dc ++ '/' :: yc)) = .error (.valueError msg)
    rw [mdySlash1_digit e v _ hcd]
    exact ⟨_, rfl⟩

/-- C10 (amended): a leg segment whose expiration is written with a
four-digit year and which carries a resolvable fill time fails inside
parse_leg with the catchable ValueError (strptime uses the two-digit %y and
the year leaves unconverted data), so the leg loop skips it.  Segments
without a fill time fail earlier, with the uncaught KeyError of the missing
fill_time pattern (see the counterexample). -/
theorem c10_four_digit_year_leg_fails (s : String) (g : LegGroups) (ft : String)
    (hg : legSearchAux s.toList = some g)
    (hft : g.fillTime = some ft) (hfe : ft ≠ "")
    (mc dc yc : List Char)
    (hexp : g.exp.toList = mc ++ '/' :: (dc ++ '/' :: yc))
    (hm1 : mc ≠ []) (hm2 : mc.length ≤ 2) (hmd : ∀ c ∈ mc, c.isDigit = true)
    (hd1 : dc ≠ []) (hd2 : dc.length ≤ 2) (hdd : ∀ c ∈ dc, c.isDigit = true)
    (hy : yc.length = 4) (hyd : ∀ c ∈ yc, c.isDigit = true) :
    (∃ msg, parse_leg s = .error (.valueError msg)) ∧
    ∀ rest acc, legLoop (s :: rest) acc = legLoop rest acc := by
  obtain ⟨msg, hmdy⟩ := strptimeMdy_year4 g.exp mc dc yc hexp hm1 hm2 hmd hd1 hd2 hdd hy hyd
  have hne : g.exp ≠ "" := by
    intro h0
    rw [h0] at hexp
    have : ([] : List Char) = mc ++ '/' :: (dc ++ '/' :: yc) := hexp
    exact absurd this.symm (by simp)
  have hpl : parse_leg s = .error (.valueError msg) := by
    unfold parse_leg
    rw [hg]
    simp only
    rw [hft]
    simp only
    rw [if_neg hfe]
    simp only
    rw [if_neg hne, hmdy]
    rfl
  refine ⟨⟨msg, hpl⟩, ?_⟩
  intro rest acc
  conv_lhs => unfold legLoop
  rw [hpl]

/-- C10 counterexample to the claim as stated: a pattern-accepted leg with a
four-digit expiration year but no Filled-at clause fails with the uncaught
KeyError, not the per-leg typed InvalidLegError, so it is not skipped with a
warning but aborts the whole order. -/
theorem c10_counterexample :
    legSearchAux c10nfText.toList = some c10nfGroups ∧
    c10nfGroups.exp = "01/17/2025" ∧
    parse_leg c10nfText = .error (.keyError "fill_time") :=
  ⟨by decide, by decide, by decide⟩

/-- C10 witness: the amended statement instantiated at a concrete four-digit
year leg carrying a fill time. -/
theorem c10_witness :
    legSearchAux c10wText.toList = some c10wGroups ∧
    (∃ msg, parse_leg c10wText = .error (.valueError msg)) :=
  ⟨by decide,
    (c10_four_digit_year_leg_fails c10wText c10wGroups "Jan 5, 2024 9:30:00 AM EST"
      (by decide) (by decide) (by decide)
      ['0', '1'] ['1', '7'] ['2', '0', '2', '5']
      (by decide) (by decide) (by decide) (by decide)
      (by decide) (by decide) (by decide) (by decide) (by decide)).1⟩

/-- C5 counterexample: an otherwise well-formed timestamp written with the
full month name January does not parse; both strict formats use the
abbreviated month directive. -/
theorem c5_counterexample :
    parse_datetime "January 5, 2024 9:30:00 AM EST" =
      .error (.valueError "Error parsing date: January 5, 2024 9:30:00 AM EST") := by
  decide

/-- C5 (amended): the two strict formats are identical apart from the zone
literal, both using the abbreviated month name; the EDT format is tried
first with EST as fallback (the EST input fails the EDT attempt and
succeeds on the fallback), and a full month name fails both attempts. -/
theorem c5_abbreviated_month_zone_fallback :
    parse_datetime "Jan 5, 2024 9:30:00 AM EDT" = .ok ⟨2024, 1, 5, 9, 30, 0⟩ ∧
    parse_datetime "Jan 5, 2024 9:30:00 AM EST" = .ok ⟨2024, 1, 5, 9, 30, 0⟩ ∧
    strptimeLong "EDT" "Jan 5, 2024 9:30:00 AM EST" = none ∧
    strptimeLong "EST" "January 5, 2024 9:30:00 AM EST" = none ∧
    parse_datetime "January 5, 2024 9:30:00 AM EST" =
      .error (.valueError "Error parsing date: January 5, 2024 9:30:00 AM EST") :=
  ⟨by decide, by decide, by decide, by decide, by decide⟩

/-- C4 counterexample: normalization is not idempotent.  Hyperlink removal
runs after the whitespace collapse and leaves a double space behind, which
only a second pass collapses. -/
theorem c4_counterexample :
    preprocess_pdf_text (preprocess_pdf_text c4Text) ≠ preprocess_pdf_text c4Text := by
  decide

/-- C4 (amended): normalization is idempotent on every input on which the
hyperlink and stray-timestamp strippers find nothing to remove and whose
normalized form the label repairs leave unchanged; on inputs where a
hyperlink or footer timestamp is removed, the removal happens after the
whitespace collapse and can leave double spaces that only a second pass
collapses, which is exactly how the unconditional claim fails. -/
theorem c4_idempotent_without_strip (x : String)
    (hurl : runSub urlAt (collapseL (ppSteps x.toList)) = collapseL (ppSteps x.toList))
    (hts : runSub footTsAt (collapseL (ppSteps x.toList)) = collapseL (ppSteps x.toList))
    (hrep : ppSteps (collapseL (ppSteps x.toList)) = collapseL (ppSteps x.toList)) :
    preprocess_pdf_text (preprocess_pdf_text x) = preprocess_pdf_text x := by
  have hx : preprocess_pdf_text x = String.mk (collapseL (ppSteps x.toList)) := by
    unfold preprocess_pdf_text
    rw [hurl, hts]
  rw [hx]
  unfold preprocess_pdf_text
  have htl : (String.mk (collapseL (ppSteps x.toList))).toList =
      collapseL (ppSteps x.toList) := rfl
  rw [htl, hrep, collapseL_idem, hurl, hts]

/-- C4 witness: the conditional idempotence instantiated at a concrete
artifact-bearing label text. -/
theorem c4_witness :
    runSub urlAt (collapseL (ppSteps c4wText.toList)) = collapseL (ppSteps c4wText.toList) ∧
    runSub footTsAt (collapseL (ppSteps c4wText.toList)) = collapseL (ppSteps c4wText.toList) ∧
    ppSteps (collapseL (ppSteps c4wText.toList)) = collapseL (ppSteps c4wText.toList) ∧
    preprocess_pdf_text (preprocess_pdf_text c4wText) = preprocess_pdf_text c4wText :=
  ⟨by decide, by decide, by decide,
    c4_idempotent_without_strip c4wText (by decide) (by decide) (by decide)⟩
